import Mathlib

/-!
# wl-mirror: `standalone_dmabuf_import.c`

A shallow embedding of the registry handlers, the xdg configure handshake and
the dmabuf-to-texture routine of `src/standalone_dmabuf_import.c`, followed by
the properties established for them.

Conventions of the embedding:

* pointers and opaque handles are natural numbers, `0` standing for `NULL`
  (`EGL_NO_IMAGE`, `EGL_NO_DISPLAY`, ...);
* `uint32_t` and `size_t` values are natural numbers; `int` and `int32_t`
  values are integers;
* `EGLAttrib` is `intptr_t` on an LP64 target: a signed 64-bit integer, held
  as an `Int`; the one conversion that can change a value (`uint64_t` to
  `EGLAttrib`) wraps explicitly modulo `2^64`;
* calls into libwayland, EGL, GLES and libc are recorded, in order, in a list
  of `Call`s; what such a call returns is supplied by the caller of the model;
* `exit(1)` ends the computation with a `Fatal` error or the outcome
  `Outcome.exited 1`; a call through a null function pointer ends it with the
  outcome `Outcome.crashed`;
* the `printf` diagnostics are not part of the model.
-/

namespace WlMirror

/-! ## Constants of `EGL/egl.h` and `EGL/eglext.h` -/

def EGL_NONE : Int := 0x3038
def EGL_HEIGHT : Int := 0x3056
def EGL_WIDTH : Int := 0x3057
def EGL_LINUX_DMA_BUF_EXT : Nat := 0x3270
def EGL_LINUX_DRM_FOURCC_EXT : Int := 0x3271
def EGL_DMA_BUF_PLANE0_FD_EXT : Int := 0x3272
def EGL_DMA_BUF_PLANE0_OFFSET_EXT : Int := 0x3273
def EGL_DMA_BUF_PLANE0_PITCH_EXT : Int := 0x3274
def EGL_DMA_BUF_PLANE1_FD_EXT : Int := 0x3275
def EGL_DMA_BUF_PLANE1_OFFSET_EXT : Int := 0x3276
def EGL_DMA_BUF_PLANE1_PITCH_EXT : Int := 0x3277
def EGL_DMA_BUF_PLANE2_FD_EXT : Int := 0x3278
def EGL_DMA_BUF_PLANE2_OFFSET_EXT : Int := 0x3279
def EGL_DMA_BUF_PLANE2_PITCH_EXT : Int := 0x327A
def EGL_DMA_BUF_PLANE3_FD_EXT : Int := 0x3440
def EGL_DMA_BUF_PLANE3_OFFSET_EXT : Int := 0x3441
def EGL_DMA_BUF_PLANE3_PITCH_EXT : Int := 0x3442
def EGL_DMA_BUF_PLANE0_MODIFIER_LO_EXT : Int := 0x3443
def EGL_DMA_BUF_PLANE0_MODIFIER_HI_EXT : Int := 0x3444
def EGL_DMA_BUF_PLANE1_MODIFIER_LO_EXT : Int := 0x3445
def EGL_DMA_BUF_PLANE1_MODIFIER_HI_EXT : Int := 0x3446
def EGL_DMA_BUF_PLANE2_MODIFIER_LO_EXT : Int := 0x3447
def EGL_DMA_BUF_PLANE2_MODIFIER_HI_EXT : Int := 0x3448
def EGL_DMA_BUF_PLANE3_MODIFIER_LO_EXT : Int := 0x3449
def EGL_DMA_BUF_PLANE3_MODIFIER_HI_EXT : Int := 0x344A

/-! ## Constants of `GLES2/gl2.h` -/

def GL_TRIANGLES : Nat := 0x0004
def GL_TEXTURE_2D : Nat := 0x0DE1
def GL_COLOR_BUFFER_BIT : Nat := 0x4000

/-! ## The per-plane key tables -/

/-- The table `fd_attribs` (four entries). -/
def fd_attribs : List Int :=
  [EGL_DMA_BUF_PLANE0_FD_EXT,
   EGL_DMA_BUF_PLANE1_FD_EXT,
   EGL_DMA_BUF_PLANE2_FD_EXT,
   EGL_DMA_BUF_PLANE3_FD_EXT]

/-- The table `offset_attribs` (four entries). -/
def offset_attribs : List Int :=
  [EGL_DMA_BUF_PLANE0_OFFSET_EXT,
   EGL_DMA_BUF_PLANE1_OFFSET_EXT,
   EGL_DMA_BUF_PLANE2_OFFSET_EXT,
   EGL_DMA_BUF_PLANE3_OFFSET_EXT]

/-- The table `stride_attribs` (four entries). -/
def stride_attribs : List Int :=
  [EGL_DMA_BUF_PLANE0_PITCH_EXT,
   EGL_DMA_BUF_PLANE1_PITCH_EXT,
   EGL_DMA_BUF_PLANE2_PITCH_EXT,
   EGL_DMA_BUF_PLANE3_PITCH_EXT]

/-- The table `modifier_low_attribs` (four entries). -/
def modifier_low_attribs : List Int :=
  [EGL_DMA_BUF_PLANE0_MODIFIER_LO_EXT,
   EGL_DMA_BUF_PLANE1_MODIFIER_LO_EXT,
   EGL_DMA_BUF_PLANE2_MODIFIER_LO_EXT,
   EGL_DMA_BUF_PLANE3_MODIFIER_LO_EXT]

/-- The table `modifier_high_attribs` (four entries). -/
def modifier_high_attribs : List Int :=
  [EGL_DMA_BUF_PLANE0_MODIFIER_HI_EXT,
   EGL_DMA_BUF_PLANE1_MODIFIER_HI_EXT,
   EGL_DMA_BUF_PLANE2_MODIFIER_HI_EXT,
   EGL_DMA_BUF_PLANE3_MODIFIER_HI_EXT]

/-! ## The buffer descriptor -/

/-- Modelled from the spec: the type `dmabuf_t` is declared in `egl.h`, which is
not among the sources. The spec's buffer descriptor holds width, height, a
4-byte packed format code, one 64-bit modifier, a plane count and, per plane, a
file descriptor, a byte offset and a byte stride. The per-plane members are
read through `fds[plane]`, `offsets[plane]` and `strides[plane]`; they are
held as the memory behind those pointers, a map from index to value. -/
structure dmabuf_t where
  width : Nat
  height : Nat
  drm_format : Nat
  planes : Nat
  fds : Nat → Int
  offsets : Nat → Nat
  strides : Nat → Nat
  modifier : Nat

/-! ## Integer conversions -/

/-- The value of a `uint64_t` (taken modulo `2^64`) after conversion to the
signed 64-bit `EGLAttrib`: the same bit pattern read in two's complement. -/
def EGLAttrib_of_uint64 (v : Nat) : Int :=
  if v % 2 ^ 64 < 2 ^ 63 then ((v % 2 ^ 64 : Nat) : Int)
  else ((v % 2 ^ 64 : Nat) : Int) - 2 ^ 64

/-- The bit pattern of an `EGLAttrib`, as an unsigned 64-bit number. -/
def uint64_of_EGLAttrib (a : Int) : Nat :=
  (a % 2 ^ 64).toNat

/-- The value of a `uint32_t` (taken modulo `2^32`) after conversion to the
signed 32-bit `GLsizei`: the same bit pattern read in two's complement. -/
def GLsizei_of_uint32 (v : Nat) : Int :=
  if v % 2 ^ 32 < 2 ^ 31 then ((v % 2 ^ 32 : Nat) : Int)
  else ((v % 2 ^ 32 : Nat) : Int) - 2 ^ 32

/-- The C expression `modifier >> 32` on a `uint64_t`. -/
def uint64_shr32 (v : Nat) : Nat :=
  (v % 2 ^ 64) / 2 ^ 32

/-! ## Building the attribute list -/

/-- The block returned by `malloc(n * sizeof (EGLAttrib))`: `n` cells, none of
them written yet. -/
def malloc_attribs (n : Nat) : List (Option Int) :=
  List.replicate n none

/-- The statement `image_attribs[i++] = v`: the write is defined only inside
the allocated block; it yields the block and the advanced index. -/
def store (st : List (Option Int) × Nat) (v : Int) : Option (List (Option Int) × Nat) :=
  if st.2 < st.1.length then some (st.1.set st.2 (some v), st.2 + 1) else none

/-- One iteration of the plane loop of `standalone_dmabuf_import_to_texture`:
ten stores, with the keys read from the five tables at index `plane`. -/
def plane_body (dmabuf : dmabuf_t) (modifier : Nat)
    (st : List (Option Int) × Nat) (plane : Nat) : Option (List (Option Int) × Nat) := do
  let st ← store st (← fd_attribs[plane]?)
  let st ← store st (dmabuf.fds plane)
  let st ← store st (← offset_attribs[plane]?)
  let st ← store st (dmabuf.offsets plane : Int)
  let st ← store st (← stride_attribs[plane]?)
  let st ← store st (dmabuf.strides plane : Int)
  let st ← store st (← modifier_low_attribs[plane]?)
  let st ← store st (EGLAttrib_of_uint64 modifier)
  let st ← store st (← modifier_high_attribs[plane]?)
  store st (uint64_shr32 modifier : Int)

/-- The attribute block of `standalone_dmabuf_import_to_texture` as it stands
when `eglCreateImage` is called, with the final value of the index `i`:
allocation of `6 + 10 * planes + 1` cells, the six fixed entries, the plane
loop `for (plane = 0; plane < planes; plane++)`, and the terminator. The
result is `none` when a store or a table read falls outside its array. -/
def fill_image_attribs (dmabuf : dmabuf_t) : Option (List (Option Int) × Nat) := do
  let planes := dmabuf.planes
  let st := (malloc_attribs (6 + 10 * planes + 1), 0)
  let st ← store st EGL_WIDTH
  let st ← store st (dmabuf.width : Int)
  let st ← store st EGL_HEIGHT
  let st ← store st (dmabuf.height : Int)
  let st ← store st EGL_LINUX_DRM_FOURCC_EXT
  let st ← store st (dmabuf.drm_format : Int)
  let modifier := dmabuf.modifier
  let st ← (List.range planes).foldlM (plane_body dmabuf modifier) st
  store st EGL_NONE

/-- The contents of a block all of whose cells have been written. -/
def written : List (Option Int) → Option (List Int)
  | [] => some []
  | c :: cs => do
    let v ← c
    let vs ← written cs
    pure (v :: vs)

/-- The attribute list handed to `eglCreateImage`. -/
def image_attribs (dmabuf : dmabuf_t) : Option (List Int) := do
  let st ← fill_image_attribs dmabuf
  written st.1

/-- How an EGL implementation reads an attribute list: key/value pairs up to
the terminator `EGL_NONE`; the value of the first pair whose key is `key`. -/
def attrib_value (key : Int) : List Int → Option Int
  | k :: v :: rest =>
    if k = EGL_NONE then none
    else if k = key then some v
    else attrib_value key rest
  | _ => none

/-- The reconstruction `(high << 32) | (low & 0xFFFFFFFF)` on the 64-bit
patterns of two `EGLAttrib` values, computed modulo `2^64`. -/
def modifier_of_halves (high low : Int) : Nat :=
  ((uint64_of_EGLAttrib high <<< 32) % 2 ^ 64) ||| (uint64_of_EGLAttrib low &&& 0xFFFFFFFF)

/-! ## Closed form of the attribute list -/

/-- A block whose first cells hold `ws` and whose `k` remaining cells are not
written, paired with the index of the first cell not written. -/
def blk (ws : List Int) (k : Nat) : List (Option Int) × Nat :=
  (ws.map some ++ List.replicate k none, ws.length)

/-- The six fixed entries. -/
def fixed_attribs (dmabuf : dmabuf_t) : List Int :=
  [EGL_WIDTH, (dmabuf.width : Int), EGL_HEIGHT, (dmabuf.height : Int),
   EGL_LINUX_DRM_FOURCC_EXT, (dmabuf.drm_format : Int)]

/-- The ten entries of plane `plane`. -/
def plane_attribs (dmabuf : dmabuf_t) (plane : Nat) : List Int :=
  [fd_attribs.getD plane 0, dmabuf.fds plane,
   offset_attribs.getD plane 0, (dmabuf.offsets plane : Int),
   stride_attribs.getD plane 0, (dmabuf.strides plane : Int),
   modifier_low_attribs.getD plane 0, EGLAttrib_of_uint64 dmabuf.modifier,
   modifier_high_attribs.getD plane 0, (uint64_shr32 dmabuf.modifier : Int)]

/-- The entries of planes `0 .. n-1`, in that order. -/
def planes_attribs (dmabuf : dmabuf_t) : Nat → List Int
  | 0 => []
  | n + 1 => planes_attribs dmabuf n ++ plane_attribs dmabuf n

/-- The whole list: fixed entries, plane entries, terminator. -/
def expected_attribs (dmabuf : dmabuf_t) : List Int :=
  fixed_attribs dmabuf ++ planes_attribs dmabuf dmabuf.planes ++ [EGL_NONE]

/-- A one-plane 1920x1080 `XRGB8888` buffer (fourcc `XR24`), linear modifier,
stride 7680, offset 0, file descriptor 5. -/
def xrgb_1080p : dmabuf_t where
  width := 1920
  height := 1080
  drm_format := 0x34325258
  planes := 1
  fds := fun _ => 5
  offsets := fun _ => 0
  strides := fun _ => 7680
  modifier := 0

/-- The buffer `xrgb_1080p` with the Intel X-tiled modifier
`I915_FORMAT_MOD_X_TILED` (vendor `0x01` in the top byte, code `1`). -/
def xrgb_1080p_x_tiled : dmabuf_t :=
  { xrgb_1080p with modifier := 0x0100000000000001 }

/-! ## Calls into the platform -/

/-- The calls the modelled functions make into libwayland, EGL, GLES and libc,
with the arguments they pass. `close` and `dup` are the descriptor operations
of libc; `glEGLImageTargetTexture2DOES` is a call through the pointer `proc`
obtained from `eglGetProcAddress`. -/
inductive Call where
  | xdg_surface_ack_configure (xdg_surface serial : Nat)
  | wl_surface_commit (surface : Nat)
  | wl_egl_window_resize (egl_window : Nat) (width height dx dy : Int)
  | glBindTexture (target texture : Nat)
  | glClear (mask : Nat)
  | glDrawArrays (mode : Nat) (first count : Int)
  | glViewport (x y width height : Int)
  | malloc (cells : Nat)
  | free (ptr : Nat)
  | eglCreateImage (dpy ctx target buffer : Nat) (attribs : List Int)
  | eglGetError
  | eglGetProcAddress (procname : String)
  | glEGLImageTargetTexture2DOES (proc target image : Nat)
  | eglDestroyImage (dpy image : Nat)
  | close (fd : Int)
  | dup (fd : Int)
  deriving DecidableEq, Repr

/-- The serials acknowledged by a sequence of calls, each with the
`xdg_surface` it was sent to. -/
def acks : List Call → List (Nat × Nat)
  | [] => []
  | Call.xdg_surface_ack_configure x s :: cs => (x, s) :: acks cs
  | _ :: cs => acks cs

/-- The surfaces committed by a sequence of calls. -/
def commits : List Call → List Nat
  | [] => []
  | Call.wl_surface_commit s :: cs => s :: commits cs
  | _ :: cs => commits cs

/-- The number of `eglGetProcAddress` calls in a sequence of calls. -/
def lookups : List Call → Nat
  | [] => 0
  | Call.eglGetProcAddress _ :: cs => lookups cs + 1
  | _ :: cs => lookups cs

/-- The struct `standalone_ctx_t`. -/
structure standalone_ctx_t where
  display : Nat
  registry : Nat
  compositor : Nat
  xdg_wm_base : Nat
  compositor_id : Nat
  xdg_wm_base_id : Nat
  surface : Nat
  xdg_surface : Nat
  xdg_toplevel : Nat
  egl_display : Nat
  egl_context : Nat
  egl_config : Nat
  egl_surface : Nat
  egl_window : Nat
  egl_vbo : Nat
  egl_texture : Nat
  egl_shader_program : Nat
  egl_image_attribs : Nat
  last_surface_serial : Nat
  xdg_surface_configured : Bool
  xdg_toplevel_configured : Bool
  configured : Bool
  closing : Bool
  deriving DecidableEq, Repr

/-- The context as `standalone_dmabuf_import_init` sets it up before it
connects to the display. The member `egl_config` is not assigned there; it
holds whatever `malloc` left in it. The `GLuint` members assigned `-1` hold
`2^32 - 1`. -/
def standalone_dmabuf_import_init_ctx (egl_config : Nat) : standalone_ctx_t where
  display := 0
  registry := 0
  compositor := 0
  compositor_id := 0
  xdg_wm_base := 0
  xdg_wm_base_id := 0
  surface := 0
  xdg_surface := 0
  xdg_toplevel := 0
  egl_display := 0
  egl_context := 0
  egl_config := egl_config
  egl_surface := 0
  egl_window := 0
  egl_vbo := 2 ^ 32 - 1
  egl_texture := 2 ^ 32 - 1
  egl_shader_program := 2 ^ 32 - 1
  egl_image_attribs := 0
  last_surface_serial := 0
  xdg_surface_configured := false
  xdg_toplevel_configured := false
  configured := false
  closing := false

/-! ## Registry handlers -/

/-- The fatal exits of the registry phase (`exit_fail` after the message). -/
inductive Fatal where
  | duplicate_compositor
  | duplicate_xdg_wm_base
  | no_compositor
  | no_xdg_wm_base
  deriving DecidableEq, Repr

/-- A `wl_registry.global` event. -/
structure Global where
  id : Nat
  interface : String
  version : Nat
  deriving DecidableEq, Repr

/-- The handler `registry_event_add`. The proxy that `wl_registry_bind`
returns for the global `id` is `wl_registry_bind id`. -/
def registry_event_add (wl_registry_bind : Nat → Nat) (ctx : standalone_ctx_t)
    (id : Nat) (interface : String) (version : Nat) : Except Fatal standalone_ctx_t :=
  let _ := version
  if interface = "wl_compositor" then
    if ctx.compositor ≠ 0 then Except.error Fatal.duplicate_compositor
    else Except.ok { ctx with compositor := wl_registry_bind id, compositor_id := id }
  else if interface = "xdg_wm_base" then
    if ctx.xdg_wm_base ≠ 0 then Except.error Fatal.duplicate_xdg_wm_base
    else Except.ok { ctx with xdg_wm_base := wl_registry_bind id, xdg_wm_base_id := id }
  else Except.ok ctx

/-- The first `wl_display_roundtrip` of `standalone_dmabuf_import_init`: the
listener `registry_listener.global` runs once for each announced global, in
the order of announcement. -/
def registry_roundtrip (wl_registry_bind : Nat → Nat) :
    standalone_ctx_t → List Global → Except Fatal standalone_ctx_t
  | ctx, [] => Except.ok ctx
  | ctx, g :: gs =>
    match registry_event_add wl_registry_bind ctx g.id g.interface g.version with
    | Except.error e => Except.error e
    | Except.ok ctx => registry_roundtrip wl_registry_bind ctx gs

/-- The check "if protocols found" of `standalone_dmabuf_import_init`. -/
def check_protocols (ctx : standalone_ctx_t) : Except Fatal standalone_ctx_t :=
  if ctx.compositor = 0 then Except.error Fatal.no_compositor
  else if ctx.xdg_wm_base = 0 then Except.error Fatal.no_xdg_wm_base
  else Except.ok ctx

/-- The registry phase of `standalone_dmabuf_import_init`: the roundtrip, then
the check. -/
def standalone_dmabuf_import_init_registry (wl_registry_bind : Nat → Nat)
    (ctx : standalone_ctx_t) (globals : List Global) : Except Fatal standalone_ctx_t :=
  match registry_roundtrip wl_registry_bind ctx globals with
  | Except.error e => Except.error e
  | Except.ok ctx => check_protocols ctx

/-- A bind that returns a non-null proxy for every global. -/
def bind_proxy (id : Nat) : Nat :=
  id + 1

/-- An enumeration that announces each required interface once, among other
globals. -/
def usual_globals : List Global :=
  [{ id := 1, interface := "wl_compositor", version := 5 },
   { id := 2, interface := "wl_shm", version := 1 },
   { id := 3, interface := "xdg_wm_base", version := 4 },
   { id := 4, interface := "wl_output", version := 4 }]

/-- The number of announcements of the interface `name`. -/
def announced (name : String) (globals : List Global) : Nat :=
  globals.countP (fun g => g.interface = name)

/-! ## Configure handshake -/

/-- The function `surface_configure_finished`. -/
def surface_configure_finished (ctx : standalone_ctx_t) : standalone_ctx_t × List Call :=
  ({ ctx with
      xdg_surface_configured := false
      xdg_toplevel_configured := false
      configured := true },
   [Call.xdg_surface_ack_configure ctx.xdg_surface ctx.last_surface_serial,
    Call.wl_surface_commit ctx.surface])

/-- The handler `xdg_surface_event_configure`. -/
def xdg_surface_event_configure (ctx : standalone_ctx_t) (serial : Nat) :
    standalone_ctx_t × List Call :=
  let ctx := { ctx with last_surface_serial := serial, xdg_surface_configured := true }
  if ctx.xdg_surface_configured && ctx.xdg_toplevel_configured then
    surface_configure_finished ctx
  else (ctx, [])

/-- The handler `xdg_toplevel_event_configure`; the array `states` is not
read. -/
def xdg_toplevel_event_configure (ctx : standalone_ctx_t) (width height : Int)
    (states : List Nat) : standalone_ctx_t × List Call :=
  let _ := states
  let drawn :=
    [Call.wl_egl_window_resize ctx.egl_window width height 0 0,
     Call.glBindTexture GL_TEXTURE_2D ctx.egl_texture,
     Call.glClear GL_COLOR_BUFFER_BIT,
     Call.glDrawArrays GL_TRIANGLES 0 6]
  let ctx := { ctx with xdg_toplevel_configured := true }
  if ctx.xdg_surface_configured && ctx.xdg_toplevel_configured then
    ((surface_configure_finished ctx).1, drawn ++ (surface_configure_finished ctx).2)
  else (ctx, drawn)

/-- The handler `xdg_toplevel_event_close`. -/
def xdg_toplevel_event_close (ctx : standalone_ctx_t) : standalone_ctx_t × List Call :=
  ({ ctx with closing := true }, [])

/-- The events the listeners `xdg_surface_listener` and
`xdg_toplevel_listener` are registered for. -/
inductive Event where
  | xdg_surface_configure (serial : Nat)
  | xdg_toplevel_configure (width height : Int) (states : List Nat)
  | xdg_toplevel_close
  deriving DecidableEq, Repr

/-- The two listener tables: the handler run for each event. -/
def handle_event (ctx : standalone_ctx_t) : Event → standalone_ctx_t × List Call
  | Event.xdg_surface_configure serial => xdg_surface_event_configure ctx serial
  | Event.xdg_toplevel_configure width height states =>
    xdg_toplevel_event_configure ctx width height states
  | Event.xdg_toplevel_close => xdg_toplevel_event_close ctx

/-- The members of the context outside the five the handshake handlers assign
(`last_surface_serial`, the two per-event booleans, `configured`, `closing`):
two contexts agree on them. -/
def same_handles (a b : standalone_ctx_t) : Prop :=
  a.display = b.display ∧ a.registry = b.registry
  ∧ a.compositor = b.compositor ∧ a.xdg_wm_base = b.xdg_wm_base
  ∧ a.compositor_id = b.compositor_id ∧ a.xdg_wm_base_id = b.xdg_wm_base_id
  ∧ a.surface = b.surface ∧ a.xdg_surface = b.xdg_surface ∧ a.xdg_toplevel = b.xdg_toplevel
  ∧ a.egl_display = b.egl_display ∧ a.egl_context = b.egl_context
  ∧ a.egl_config = b.egl_config ∧ a.egl_surface = b.egl_surface
  ∧ a.egl_window = b.egl_window ∧ a.egl_vbo = b.egl_vbo ∧ a.egl_texture = b.egl_texture
  ∧ a.egl_shader_program = b.egl_shader_program
  ∧ a.egl_image_attribs = b.egl_image_attribs

/-- A context in which the window has been created and the first configure is
awaited: `standalone_dmabuf_import_init_ctx` with handles in place. -/
def awaiting_configure : standalone_ctx_t :=
  { standalone_dmabuf_import_init_ctx 0 with
    display := 1, registry := 2, compositor := 3, xdg_wm_base := 4,
    compositor_id := 1, xdg_wm_base_id := 2,
    surface := 5, xdg_surface := 6, xdg_toplevel := 7 }

/-- The context `awaiting_configure` after its first configure: a surface
configure with serial 1, then a toplevel configure of 100x100. -/
def after_first_configure : standalone_ctx_t :=
  (xdg_toplevel_event_configure (xdg_surface_event_configure awaiting_configure 1).1
    100 100 []).1

/-! ## Import of a dmabuf into a texture -/

/-- What the platform returns during one call of
`standalone_dmabuf_import_to_texture`: the pointer from `malloc`, the image
from `eglCreateImage` and the address from `eglGetProcAddress`. -/
structure Platform where
  malloc_result : Nat
  frame_image : Nat
  proc : Nat

/-- The resources of the process that a call can affect: the live heap
blocks, the live `EGLImage` handles, and the calls made so far. -/
structure Resources where
  heap : Finset Nat
  live_images : Finset Nat
  calls : List Call

/-- How a call ends: it returns, the process exits with a status, or the
process dies in a call through a null function pointer. -/
inductive Outcome where
  | returned
  | exited (status : Nat)
  | crashed
  deriving DecidableEq, Repr

/-- The function `standalone_dmabuf_import_to_texture`. The descriptor is
passed by pointer, so the result carries the descriptor as the call leaves it.
The result is `none` when an array access of the call is out of bounds. The
pointer that `eglGetProcAddress` returns is called without a test, as in the
source: when it is null the process dies at that call, after the image has
been created and before `eglDestroyImage`. -/
def standalone_dmabuf_import_to_texture (env : Platform) (res : Resources)
    (egl_display egl_texture : Nat) (dmabuf : dmabuf_t) :
    Option (Outcome × Resources × dmabuf_t) :=
  let planes := dmabuf.planes
  let calls := res.calls ++ [Call.malloc (6 + 10 * planes + 1)]
  if env.malloc_result = 0 then
    some (Outcome.exited 1, { res with calls := calls }, dmabuf)
  else
    let heap := insert env.malloc_result res.heap
    match image_attribs dmabuf with
    | none => none
    | some attribs =>
      let calls := calls ++
        [Call.glViewport 0 0 (GLsizei_of_uint32 dmabuf.width)
          (GLsizei_of_uint32 dmabuf.height)]
      let calls := calls ++
        [Call.eglCreateImage egl_display 0 EGL_LINUX_DMA_BUF_EXT 0 attribs]
      let live := if env.frame_image = 0 then res.live_images
        else insert env.frame_image res.live_images
      let calls := calls ++ [Call.free env.malloc_result]
      let heap := heap.erase env.malloc_result
      if env.frame_image = 0 then
        some (Outcome.exited 1,
          { heap := heap, live_images := live, calls := calls ++ [Call.eglGetError] }, dmabuf)
      else
        let calls := calls ++ [Call.glBindTexture GL_TEXTURE_2D egl_texture]
        let calls := calls ++ [Call.eglGetProcAddress "glEGLImageTargetTexture2DOES"]
        if env.proc = 0 then
          some (Outcome.crashed, { heap := heap, live_images := live, calls := calls }, dmabuf)
        else
          let calls := calls ++
            [Call.glEGLImageTargetTexture2DOES env.proc GL_TEXTURE_2D env.frame_image]
          let calls := calls ++ [Call.eglDestroyImage egl_display env.frame_image]
          some (Outcome.returned,
            { heap := heap, live_images := live.erase env.frame_image, calls := calls },
            dmabuf)

/-- One frame: what the platform returns during the call, and the arguments
of the call. -/
structure Frame where
  env : Platform
  egl_display : Nat
  egl_texture : Nat
  dmabuf : dmabuf_t

/-- A run of calls of `standalone_dmabuf_import_to_texture`, one per frame,
up to the first call that does not return. -/
def import_run (res : Resources) : List Frame → Option (Outcome × Resources)
  | [] => some (Outcome.returned, res)
  | f :: fs =>
    match standalone_dmabuf_import_to_texture f.env res f.egl_display f.egl_texture f.dmabuf with
    | none => none
    | some (Outcome.exited status, res, _) => some (Outcome.exited status, res)
    | some (Outcome.crashed, res, _) => some (Outcome.crashed, res)
    | some (Outcome.returned, res, _) => import_run res fs

/-- A process with no heap block and no image live, before any call. -/
def no_resources : Resources where
  heap := ∅
  live_images := ∅
  calls := []

/-- A frame of `xrgb_1080p` for which allocation and image creation succeed. -/
def good_frame : Frame where
  env := { malloc_result := 4096, frame_image := 1, proc := 8192 }
  egl_display := 1
  egl_texture := 1
  dmabuf := xrgb_1080p

/-! ## Array accesses of the import call -/

/-- The arrays that `standalone_dmabuf_import_to_texture` indexes: the block
`image_attribs`, the five key tables, and the three per-plane arrays of the
descriptor. -/
inductive Arr where
  | image_attribs
  | fd_attribs
  | offset_attribs
  | stride_attribs
  | modifier_low_attribs
  | modifier_high_attribs
  | fds
  | offsets
  | strides
  deriving DecidableEq, Repr

/-- One indexing of an array: `image_attribs` is only written, the other
arrays are only read. -/
structure Access where
  array : Arr
  index : Nat
  deriving DecidableEq, Repr

/-- The number of entries of each array: the allocated length of the block,
the lengths of the key tables, and four entries for each per-plane array of
the descriptor. -/
def capacity (planes : Nat) : Arr → Nat
  | Arr.image_attribs => 6 + 10 * planes + 1
  | Arr.fd_attribs => fd_attribs.length
  | Arr.offset_attribs => offset_attribs.length
  | Arr.stride_attribs => stride_attribs.length
  | Arr.modifier_low_attribs => modifier_low_attribs.length
  | Arr.modifier_high_attribs => modifier_high_attribs.length
  | Arr.fds => 4
  | Arr.offsets => 4
  | Arr.strides => 4

/-- The accesses of one iteration of the plane loop, appended to those made
so far, with the index `i` advanced: each of the ten statements
`image_attribs[i++] = e` reads what `e` indexes, if anything, and writes the
cell `i`; the `printf` that ends the body reads `offsets[plane]` and
`strides[plane]` once more. -/
def plane_body_accesses (st : List Access × Nat) (plane : Nat) : List Access × Nat :=
  (st.1 ++
    [{ array := Arr.fd_attribs, index := plane },
     { array := Arr.image_attribs, index := st.2 },
     { array := Arr.fds, index := plane },
     { array := Arr.image_attribs, index := st.2 + 1 },
     { array := Arr.offset_attribs, index := plane },
     { array := Arr.image_attribs, index := st.2 + 2 },
     { array := Arr.offsets, index := plane },
     { array := Arr.image_attribs, index := st.2 + 3 },
     { array := Arr.stride_attribs, index := plane },
     { array := Arr.image_attribs, index := st.2 + 4 },
     { array := Arr.strides, index := plane },
     { array := Arr.image_attribs, index := st.2 + 5 },
     { array := Arr.modifier_low_attribs, index := plane },
     { array := Arr.image_attribs, index := st.2 + 6 },
     { array := Arr.image_attribs, index := st.2 + 7 },
     { array := Arr.modifier_high_attribs, index := plane },
     { array := Arr.image_attribs, index := st.2 + 8 },
     { array := Arr.image_attribs, index := st.2 + 9 },
     { array := Arr.offsets, index := plane },
     { array := Arr.strides, index := plane }],
   st.2 + 10)

/-- The array accesses of `standalone_dmabuf_import_to_texture` up to the call
of `eglCreateImage`, in order, with the final value of the index `i`: six
writes, the plane loop, and the write of the terminator. They depend on the
descriptor through its plane count only. -/
def import_accesses (planes : Nat) : List Access × Nat :=
  let st : List Access × Nat :=
    ([{ array := Arr.image_attribs, index := 0 },
      { array := Arr.image_attribs, index := 1 },
      { array := Arr.image_attribs, index := 2 },
      { array := Arr.image_attribs, index := 3 },
      { array := Arr.image_attribs, index := 4 },
      { array := Arr.image_attribs, index := 5 }], 6)
  let st := (List.range planes).foldl plane_body_accesses st
  (st.1 ++ [{ array := Arr.image_attribs, index := st.2 }], st.2 + 1)

/-- The indices written in `image_attribs`, in the order of the writes. -/
def writes : List Access → List Nat
  | [] => []
  | a :: as => if a.array = Arr.image_attribs then a.index :: writes as else writes as

/-- Whether an access reads a per-plane array of the descriptor. -/
def reads_descriptor (a : Access) : Bool :=
  a.array = Arr.fds || a.array = Arr.offsets || a.array = Arr.strides

/-- A descriptor with five planes, one more than the key tables hold. -/
def five_planes : dmabuf_t :=
  { xrgb_1080p with planes := 5 }

/-! # Properties -/

/-! ## The attribute list -/

theorem store_blk (ws : List Int) (k : Nat) (v : Int) :
    store (blk ws (k + 1)) v = some (blk (ws ++ [v]) k) := by
  simp [store, blk, List.replicate_succ, List.set_append_right]

theorem table_read (l : List Int) (hl : l.length = 4) (plane : Nat) (hp : plane < 4) :
    l[plane]? = some (l.getD plane 0) := by
  rw [List.getD_eq_getElem?_getD, List.getElem?_eq_getElem (by omega)]
  simp

theorem plane_body_blk (d : dmabuf_t) (ws : List Int) (k plane : Nat) (hp : plane < 4) :
    plane_body d d.modifier (blk ws (k + 10)) plane
      = some (blk (ws ++ plane_attribs d plane) k) := by
  simp only [plane_body, table_read fd_attribs rfl plane hp,
    table_read offset_attribs rfl plane hp, table_read stride_attribs rfl plane hp,
    table_read modifier_low_attribs rfl plane hp, table_read modifier_high_attribs rfl plane hp,
    Option.bind_eq_bind, Option.some_bind, store_blk, plane_attribs, List.append_assoc,
    List.singleton_append, List.cons_append, List.nil_append]

theorem plane_loop_blk (d : dmabuf_t) (ws : List Int) (n : Nat) (hn : n ≤ 4) (k : Nat) :
    (List.range n).foldlM (plane_body d d.modifier) (blk ws (10 * n + k))
      = some (blk (ws ++ planes_attribs d n) k) := by
  induction n generalizing k with
  | zero => simp [planes_attribs]
  | succ n ih =>
    rw [List.range_succ, List.foldlM_append, show 10 * (n + 1) + k = 10 * n + (k + 10) by ring,
      ih (by omega)]
    simp [plane_body_blk d _ k n (by omega), planes_attribs]

theorem written_blk (ws : List Int) : written (blk ws 0).1 = some ws := by
  induction ws with
  | nil => simp [blk, written]
  | cons a l ih => simp [blk, written] at ih ⊢; simp [ih]

theorem fill_image_attribs_eq (d : dmabuf_t) (h4 : d.planes ≤ 4) :
    fill_image_attribs d = some (blk (expected_attribs d) 0) := by
  have h0 : (malloc_attribs (6 + 10 * d.planes + 1), 0) = blk [] (10 * d.planes + 1 + 5 + 1) := by
    simp [blk, malloc_attribs]
    ring_nf
  have hl := plane_loop_blk d (fixed_attribs d) d.planes h4 (0 + 1)
  simp only [fixed_attribs] at hl
  simp only [fill_image_attribs, h0, store_blk, Option.bind_eq_bind, Option.some_bind,
    List.nil_append, List.singleton_append, List.cons_append]
  rw [show 10 * d.planes + 1 = 10 * d.planes + (0 + 1) by rfl, hl]
  simp [store_blk, expected_attribs, fixed_attribs]

theorem image_attribs_eq (d : dmabuf_t) (h4 : d.planes ≤ 4) :
    image_attribs d = some (expected_attribs d) := by
  simp [image_attribs, fill_image_attribs_eq d h4, written_blk]

theorem length_planes_attribs (d : dmabuf_t) (n : Nat) :
    (planes_attribs d n).length = 10 * n := by
  induction n with
  | zero => rfl
  | succ n ih => simp [planes_attribs, ih, plane_attribs]; ring

theorem attrib_value_modifier (d : dmabuf_t) (h4 : d.planes ≤ 4) (k : Nat) (hk : k < d.planes) :
    attrib_value (modifier_low_attribs.getD k 0) (expected_attribs d)
        = some (EGLAttrib_of_uint64 d.modifier)
      ∧ attrib_value (modifier_high_attribs.getD k 0) (expected_attribs d)
        = some (uint64_shr32 d.modifier : Int) := by
  obtain ⟨w, h, f, p, fds, offs, strs, m⟩ := d
  simp only at h4 hk
  interval_cases p <;> interval_cases k <;>
    simp [expected_attribs, fixed_attribs, planes_attribs, plane_attribs, attrib_value,
      fd_attribs, offset_attribs, stride_attribs, modifier_low_attribs, modifier_high_attribs,
      EGL_NONE, EGL_HEIGHT, EGL_WIDTH, EGL_LINUX_DRM_FOURCC_EXT,
      EGL_DMA_BUF_PLANE0_FD_EXT, EGL_DMA_BUF_PLANE0_OFFSET_EXT, EGL_DMA_BUF_PLANE0_PITCH_EXT,
      EGL_DMA_BUF_PLANE1_FD_EXT, EGL_DMA_BUF_PLANE1_OFFSET_EXT, EGL_DMA_BUF_PLANE1_PITCH_EXT,
      EGL_DMA_BUF_PLANE2_FD_EXT, EGL_DMA_BUF_PLANE2_OFFSET_EXT, EGL_DMA_BUF_PLANE2_PITCH_EXT,
      EGL_DMA_BUF_PLANE3_FD_EXT, EGL_DMA_BUF_PLANE3_OFFSET_EXT, EGL_DMA_BUF_PLANE3_PITCH_EXT,
      EGL_DMA_BUF_PLANE0_MODIFIER_LO_EXT, EGL_DMA_BUF_PLANE0_MODIFIER_HI_EXT,
      EGL_DMA_BUF_PLANE1_MODIFIER_LO_EXT, EGL_DMA_BUF_PLANE1_MODIFIER_HI_EXT,
      EGL_DMA_BUF_PLANE2_MODIFIER_LO_EXT, EGL_DMA_BUF_PLANE2_MODIFIER_HI_EXT,
      EGL_DMA_BUF_PLANE3_MODIFIER_LO_EXT, EGL_DMA_BUF_PLANE3_MODIFIER_HI_EXT]

theorem uint64_of_EGLAttrib_of_uint64 (m : Nat) :
    uint64_of_EGLAttrib (EGLAttrib_of_uint64 m) = m % 2 ^ 64 := by
  unfold uint64_of_EGLAttrib EGLAttrib_of_uint64
  have hlt : m % 2 ^ 64 < 2 ^ 64 := Nat.mod_lt _ (by norm_num)
  split
  · omega
  · omega

theorem modifier_of_halves_eq (m : Nat) :
    modifier_of_halves (uint64_shr32 m : Int) (EGLAttrib_of_uint64 m) = m % 2 ^ 64 := by
  have hlt : m % 2 ^ 64 < 2 ^ 64 := Nat.mod_lt _ (by norm_num)
  have hhi : uint64_of_EGLAttrib (uint64_shr32 m : Int) = m % 2 ^ 64 / 2 ^ 32 := by
    unfold uint64_of_EGLAttrib uint64_shr32
    omega
  unfold modifier_of_halves
  rw [uint64_of_EGLAttrib_of_uint64, hhi, Nat.shiftLeft_eq,
    show (0xFFFFFFFF : Nat) = 2 ^ 32 - 1 by norm_num, Nat.and_pow_two_sub_one_eq_mod]
  have hmod : m % 2 ^ 64 / 2 ^ 32 * 2 ^ 32 % 2 ^ 64 = 2 ^ 32 * (m % 2 ^ 64 / 2 ^ 32) := by
    omega
  rw [hmod, ← Nat.mul_add_lt_is_or (Nat.mod_lt _ (by norm_num))]
  omega

/-- C3. For every 64-bit modifier and every plane of a descriptor with at most
four planes, the value `low` stored under the plane's MODIFIER_LO key and the
value `high` stored under its MODIFIER_HI key satisfy
`(high << 32) | (low & 0xFFFFFFFF) = modifier` on 64-bit patterns. -/
theorem modifier_halves_reconstruct (d : dmabuf_t) (h4 : d.planes ≤ 4)
    (hm : d.modifier < 2 ^ 64) (k : Nat) (hk : k < d.planes) :
    ∃ l lo_key hi_key low high,
      image_attribs d = some l
      ∧ modifier_low_attribs[k]? = some lo_key ∧ modifier_high_attribs[k]? = some hi_key
      ∧ attrib_value lo_key l = some low ∧ attrib_value hi_key l = some high
      ∧ modifier_of_halves high low = d.modifier := by
  have hk4 : k < 4 := by omega
  refine ⟨_, _, _, _, _, image_attribs_eq d h4, table_read modifier_low_attribs rfl k hk4,
    table_read modifier_high_attribs rfl k hk4, (attrib_value_modifier d h4 k hk).1,
    (attrib_value_modifier d h4 k hk).2, ?_⟩
  rw [modifier_of_halves_eq, Nat.mod_eq_of_lt hm]

/-- C3, witness: a one-plane buffer whose modifier has bit 63 set. -/
theorem modifier_halves_reconstruct_witness :
    ∃ l lo_key hi_key low high,
      image_attribs { xrgb_1080p with modifier := 0x8100000000000001 } = some l
      ∧ modifier_low_attribs[0]? = some lo_key ∧ modifier_high_attribs[0]? = some hi_key
      ∧ attrib_value lo_key l = some low ∧ attrib_value hi_key l = some high
      ∧ modifier_of_halves high low = 0x8100000000000001 :=
  modifier_halves_reconstruct { xrgb_1080p with modifier := 0x8100000000000001 }
    (by decide) (by decide) 0 (by decide)

/-- C4, at the failing input: for the X-tiled one-plane buffer (modifier
`0x0100000000000001`) the value stored under `EGL_DMA_BUF_PLANE0_MODIFIER_LO_EXT`
is the whole modifier `0x0100000000000001`, whereas the low 32 bits of the
modifier are `1`; the value under `EGL_DMA_BUF_PLANE0_MODIFIER_HI_EXT` is the
high half `0x01000000`. -/
theorem modifier_low_not_truncated :
    ∃ l, image_attribs xrgb_1080p_x_tiled = some l
      ∧ attrib_value EGL_DMA_BUF_PLANE0_MODIFIER_LO_EXT l = some 0x0100000000000001
      ∧ xrgb_1080p_x_tiled.modifier % 2 ^ 32 = 1
      ∧ attrib_value EGL_DMA_BUF_PLANE0_MODIFIER_HI_EXT l = some 0x01000000
      ∧ xrgb_1080p_x_tiled.modifier / 2 ^ 32 = 0x01000000 := by
  have h := attrib_value_modifier xrgb_1080p_x_tiled (by decide) 0 (by decide)
  refine ⟨_, image_attribs_eq xrgb_1080p_x_tiled (by decide), ?_, by decide, ?_, by decide⟩
  · rw [show EGL_DMA_BUF_PLANE0_MODIFIER_LO_EXT = modifier_low_attribs.getD 0 0 from rfl, h.1]
    decide
  · rw [show EGL_DMA_BUF_PLANE0_MODIFIER_HI_EXT = modifier_high_attribs.getD 0 0 from rfl, h.2]
    decide

/-! ## The configure handshake -/

/-- C2. From a context whose three configure flags are false, a surface
configure with serial `s` and a toplevel configure, handled in either order,
leave `configured` false after the first event and true after the second; the
calls of the two events together hold exactly one `xdg_surface_ack_configure`,
sent to the context's `xdg_surface` with serial `s`, and exactly one
`wl_surface_commit`, of the context's surface. -/
theorem configure_either_order (ctx : standalone_ctx_t)
    (hs : ctx.xdg_surface_configured = false) (ht : ctx.xdg_toplevel_configured = false)
    (hc : ctx.configured = false) (s : Nat) (width height : Int) (states : List Nat) :
    ((xdg_surface_event_configure ctx s).1.configured = false
      ∧ (xdg_toplevel_event_configure (xdg_surface_event_configure ctx s).1
          width height states).1.configured = true
      ∧ acks ((xdg_surface_event_configure ctx s).2
          ++ (xdg_toplevel_event_configure (xdg_surface_event_configure ctx s).1
              width height states).2) = [(ctx.xdg_surface, s)]
      ∧ commits ((xdg_surface_event_configure ctx s).2
          ++ (xdg_toplevel_event_configure (xdg_surface_event_configure ctx s).1
              width height states).2) = [ctx.surface])
    ∧ ((xdg_toplevel_event_configure ctx width height states).1.configured = false
      ∧ (xdg_surface_event_configure (xdg_toplevel_event_configure ctx width height states).1
          s).1.configured = true
      ∧ acks ((xdg_toplevel_event_configure ctx width height states).2
          ++ (xdg_surface_event_configure (xdg_toplevel_event_configure ctx width height states).1
              s).2) = [(ctx.xdg_surface, s)]
      ∧ commits ((xdg_toplevel_event_configure ctx width height states).2
          ++ (xdg_surface_event_configure (xdg_toplevel_event_configure ctx width height states).1
              s).2) = [ctx.surface]) := by
  simp [xdg_surface_event_configure, xdg_toplevel_event_configure, surface_configure_finished,
    hs, ht, hc, acks, commits]

/-- C2, witness: the context that awaits its first configure, serial 7 and a
requested size of 640x480. -/
theorem configure_either_order_witness :
    (xdg_surface_event_configure awaiting_configure 7).1.configured = false
      ∧ (xdg_toplevel_event_configure (xdg_surface_event_configure awaiting_configure 7).1
          640 480 []).1.configured = true
      ∧ acks ((xdg_surface_event_configure awaiting_configure 7).2
          ++ (xdg_toplevel_event_configure (xdg_surface_event_configure awaiting_configure 7).1
              640 480 []).2) = [(6, 7)] :=
  have h := (configure_either_order awaiting_configure rfl rfl rfl 7 640 480 []).1
  ⟨h.1, h.2.1, h.2.2.1⟩

/-- C5, as stated, fails: two invocations of `surface_configure_finished`, the
second on the state left by the first, issue two acknowledgements of the same
serial and two commits. -/
theorem finalize_twice_acks_twice :
    acks ((surface_configure_finished after_first_configure).2
        ++ (surface_configure_finished (surface_configure_finished after_first_configure).1).2)
      = [(6, 1), (6, 1)]
    ∧ commits ((surface_configure_finished after_first_configure).2
        ++ (surface_configure_finished (surface_configure_finished after_first_configure).1).2)
      = [5, 5] := by
  decide

/-- C5, amended. Every invocation of `surface_configure_finished` issues one
acknowledgement, of `last_surface_serial`, and one commit; on the state it
leaves, a further configure event of either kind, handled by its handler,
issues no acknowledgement and no commit. -/
theorem finalize_guarded_by_handlers (ctx : standalone_ctx_t) :
    acks (surface_configure_finished ctx).2 = [(ctx.xdg_surface, ctx.last_surface_serial)]
    ∧ commits (surface_configure_finished ctx).2 = [ctx.surface]
    ∧ (∀ serial : Nat,
        acks (xdg_surface_event_configure (surface_configure_finished ctx).1 serial).2 = []
        ∧ commits (xdg_surface_event_configure (surface_configure_finished ctx).1 serial).2 = [])
    ∧ (∀ (width height : Int) (states : List Nat),
        acks (xdg_toplevel_event_configure (surface_configure_finished ctx).1
          width height states).2 = []
        ∧ commits (xdg_toplevel_event_configure (surface_configure_finished ctx).1
          width height states).2 = []) := by
  simp [xdg_surface_event_configure, xdg_toplevel_event_configure, surface_configure_finished,
    acks, commits]

/-- C7. The close handler sets `closing` and assigns no other member, whatever
the configure state, and makes no call; in particular a context in which
`configured` is false has `closing` true and `configured` still false
afterwards. -/
theorem close_sets_only_closing (ctx : standalone_ctx_t) :
    (xdg_toplevel_event_close ctx).1.closing = true
    ∧ (xdg_toplevel_event_close ctx).1.configured = ctx.configured
    ∧ (xdg_toplevel_event_close ctx).1.xdg_surface_configured = ctx.xdg_surface_configured
    ∧ (xdg_toplevel_event_close ctx).1.xdg_toplevel_configured = ctx.xdg_toplevel_configured
    ∧ (xdg_toplevel_event_close ctx).1.last_surface_serial = ctx.last_surface_serial
    ∧ same_handles ctx (xdg_toplevel_event_close ctx).1
    ∧ (xdg_toplevel_event_close ctx).2 = []
    ∧ (ctx.configured = false →
        (xdg_toplevel_event_close ctx).1.closing = true
        ∧ (xdg_toplevel_event_close ctx).1.configured = false) := by
  simp [xdg_toplevel_event_close, same_handles]

/-- C7, witness: a close event before the first configure. -/
theorem close_sets_only_closing_witness :
    awaiting_configure.configured = false
    ∧ (xdg_toplevel_event_close awaiting_configure).1.closing = true
    ∧ (xdg_toplevel_event_close awaiting_configure).1.configured = false :=
  ⟨rfl, (close_sets_only_closing awaiting_configure).2.2.2.2.2.2.2 rfl⟩

/-- C9, as stated, fails: after the first configure, a surface configure with
serial 2 changes `last_surface_serial` from 1 to 2 and `xdg_surface_configured`
from false to true. -/
theorem later_configure_changes_serial :
    after_first_configure.configured = true
    ∧ after_first_configure.last_surface_serial = 1
    ∧ (handle_event after_first_configure (Event.xdg_surface_configure 2)).1.last_surface_serial
        = 2
    ∧ after_first_configure.xdg_surface_configured = false
    ∧ (handle_event after_first_configure
        (Event.xdg_surface_configure 2)).1.xdg_surface_configured = true := by
  decide

/-- C9, amended. Once `configured` is true, every event leaves it true and
leaves unchanged every member other than `last_surface_serial`, the two
per-event booleans and `closing`. A surface configure stores its serial and
leaves `closing`; a toplevel configure leaves `last_surface_serial` and
`closing`; a close leaves everything but `closing`, which it sets. -/
theorem later_events_frame (ctx : standalone_ctx_t) (hc : ctx.configured = true) :
    (∀ ev : Event, (handle_event ctx ev).1.configured = true
        ∧ same_handles ctx (handle_event ctx ev).1)
    ∧ (∀ serial : Nat,
        (handle_event ctx (Event.xdg_surface_configure serial)).1.last_surface_serial = serial
        ∧ (handle_event ctx (Event.xdg_surface_configure serial)).1.closing = ctx.closing)
    ∧ (∀ (width height : Int) (states : List Nat),
        (handle_event ctx (Event.xdg_toplevel_configure width height states)).1.last_surface_serial
          = ctx.last_surface_serial
        ∧ (handle_event ctx (Event.xdg_toplevel_configure width height states)).1.closing
          = ctx.closing)
    ∧ ((handle_event ctx Event.xdg_toplevel_close).1.closing = true
        ∧ (handle_event ctx Event.xdg_toplevel_close).1.last_surface_serial
          = ctx.last_surface_serial
        ∧ (handle_event ctx Event.xdg_toplevel_close).1.xdg_surface_configured
          = ctx.xdg_surface_configured
        ∧ (handle_event ctx Event.xdg_toplevel_close).1.xdg_toplevel_configured
          = ctx.xdg_toplevel_configured) := by
  refine ⟨?_, ?_, ?_, ?_⟩
  · intro ev
    cases ev <;>
      simp only [handle_event, xdg_surface_event_configure, xdg_toplevel_event_configure,
        xdg_toplevel_event_close, surface_configure_finished, same_handles] <;>
      first
        | (split <;> simp [hc])
        | simp [hc]
  · intro serial
    simp only [handle_event, xdg_surface_event_configure, surface_configure_finished]
    split <;> simp
  · intro width height states
    simp only [handle_event, xdg_toplevel_event_configure, surface_configure_finished]
    split <;> simp
  · simp [handle_event, xdg_toplevel_event_close]

/-- C9 amended, witness: events delivered after the first configure. -/
theorem later_events_frame_witness :
    after_first_configure.configured = true
    ∧ ∀ ev : Event, (handle_event after_first_configure ev).1.configured = true
        ∧ same_handles after_first_configure (handle_event after_first_configure ev).1 :=
  ⟨rfl, (later_events_frame after_first_configure rfl).1⟩

/-! ## The registry -/

theorem announced_cons (name : String) (g : Global) (gs : List Global) :
    announced name (g :: gs) = announced name gs + (if g.interface = name then 1 else 0) := by
  simp [announced, List.countP_cons]

theorem announced_cons_eq (name : String) (g : Global) (gs : List Global)
    (h : g.interface = name) : announced name (g :: gs) = announced name gs + 1 := by
  rw [announced_cons, if_pos h]

theorem announced_cons_ne (name : String) (g : Global) (gs : List Global)
    (h : g.interface ≠ name) : announced name (g :: gs) = announced name gs := by
  rw [announced_cons, if_neg h, Nat.add_zero]

theorem announced_pos (name : String) (g : Global) (gs : List Global) (hg : g ∈ gs)
    (h : g.interface = name) : 0 < announced name gs := by
  unfold announced
  exact List.countP_pos_iff.2 ⟨g, hg, by simpa using h⟩

theorem announced_append (name : String) (pre post : List Global) :
    announced name (pre ++ post) = announced name pre + announced name post := by
  simp [announced, List.countP_append]

theorem registry_event_add_other (B : Nat → Nat) (ctx : standalone_ctx_t) (g : Global)
    (hc : g.interface ≠ "wl_compositor") (hx : g.interface ≠ "xdg_wm_base") :
    registry_event_add B ctx g.id g.interface g.version = Except.ok ctx := by
  simp [registry_event_add, hc, hx]

/-- What a successful roundtrip leaves in the context, from any starting
context. -/
theorem registry_roundtrip_ok (B : Nat → Nat) (hB : ∀ id, B id ≠ 0) (gs : List Global) :
    ∀ ctx ctx', registry_roundtrip B ctx gs = Except.ok ctx' →
      (announced "wl_compositor" gs = 0 →
          ctx'.compositor = ctx.compositor ∧ ctx'.compositor_id = ctx.compositor_id)
      ∧ (announced "wl_compositor" gs ≠ 0 →
          ctx.compositor = 0 ∧ announced "wl_compositor" gs = 1 ∧ ctx'.compositor ≠ 0
          ∧ ∀ g ∈ gs, g.interface = "wl_compositor" →
              ctx'.compositor_id = g.id ∧ ctx'.compositor = B g.id)
      ∧ (announced "xdg_wm_base" gs = 0 →
          ctx'.xdg_wm_base = ctx.xdg_wm_base ∧ ctx'.xdg_wm_base_id = ctx.xdg_wm_base_id)
      ∧ (announced "xdg_wm_base" gs ≠ 0 →
          ctx.xdg_wm_base = 0 ∧ announced "xdg_wm_base" gs = 1 ∧ ctx'.xdg_wm_base ≠ 0
          ∧ ∀ g ∈ gs, g.interface = "xdg_wm_base" →
              ctx'.xdg_wm_base_id = g.id ∧ ctx'.xdg_wm_base = B g.id) := by
  induction gs with
  | nil =>
    intro ctx ctx' h
    simp [registry_roundtrip] at h
    subst h
    simp [announced]
  | cons g gs ih =>
    intro ctx ctx' h
    rw [registry_roundtrip] at h
    by_cases hc : g.interface = "wl_compositor"
    · have hx : g.interface ≠ "xdg_wm_base" := by rw [hc]; decide
      by_cases h0 : ctx.compositor = 0
      · simp [registry_event_add, hc, h0] at h
        obtain ⟨i1, i2, i3, i4⟩ := ih _ _ h
        rw [announced_cons_eq _ g gs hc, announced_cons_ne _ g gs hx]
        have hz : announced "wl_compositor" gs = 0 := by
          by_contra hne
          exact hB g.id (i2 hne).1
        refine ⟨by omega, fun _ => ⟨h0, by omega, ?_, ?_⟩, ?_, ?_⟩
        · rw [(i1 hz).1]; exact hB g.id
        · intro g' hg' hi
          rcases List.mem_cons.1 hg' with rfl | hmem
          · exact ⟨(i1 hz).2, (i1 hz).1⟩
          · exfalso
            have := announced_pos _ g' gs hmem hi
            omega
        · intro hz'
          exact i3 hz'
        · intro hnz
          obtain ⟨j1, j2, j3, j4⟩ := i4 hnz
          refine ⟨j1, j2, j3, ?_⟩
          intro g' hg' hi
          rcases List.mem_cons.1 hg' with rfl | hmem
          · exact absurd hi hx
          · exact j4 g' hmem hi
      · simp [registry_event_add, hc, h0] at h
    · by_cases hx : g.interface = "xdg_wm_base"
      · by_cases h0 : ctx.xdg_wm_base = 0
        · simp [registry_event_add, hc, hx, h0] at h
          obtain ⟨i1, i2, i3, i4⟩ := ih _ _ h
          rw [announced_cons_eq _ g gs hx, announced_cons_ne _ g gs hc]
          have hz : announced "xdg_wm_base" gs = 0 := by
            by_contra hne
            exact hB g.id (i4 hne).1
          refine ⟨?_, ?_, by omega, fun _ => ⟨h0, by omega, ?_, ?_⟩⟩
          · intro hz'
            exact i1 hz'
          · intro hnz
            obtain ⟨j1, j2, j3, j4⟩ := i2 hnz
            refine ⟨j1, j2, j3, ?_⟩
            intro g' hg' hi
            rcases List.mem_cons.1 hg' with rfl | hmem
            · exact absurd hi hc
            · exact j4 g' hmem hi
          · rw [(i3 hz).1]; exact hB g.id
          · intro g' hg' hi
            rcases List.mem_cons.1 hg' with rfl | hmem
            · exact ⟨(i3 hz).2, (i3 hz).1⟩
            · exfalso
              have := announced_pos _ g' gs hmem hi
              omega
        · simp [registry_event_add, hc, hx, h0] at h
      · rw [registry_event_add_other B ctx g hc hx] at h
        obtain ⟨i1, i2, i3, i4⟩ := ih _ _ h
        rw [announced_cons_ne _ g gs hc, announced_cons_ne _ g gs hx]
        refine ⟨i1, ?_, i3, ?_⟩
        · intro hnz
          obtain ⟨j1, j2, j3, j4⟩ := i2 hnz
          refine ⟨j1, j2, j3, ?_⟩
          intro g' hg' hi
          rcases List.mem_cons.1 hg' with rfl | hmem
          · exact absurd hi hc
          · exact j4 g' hmem hi
        · intro hnz
          obtain ⟨j1, j2, j3, j4⟩ := i4 hnz
          refine ⟨j1, j2, j3, ?_⟩
          intro g' hg' hi
          rcases List.mem_cons.1 hg' with rfl | hmem
          · exact absurd hi hx
          · exact j4 g' hmem hi

/-- A roundtrip without a duplicate announcement runs to its end. -/
theorem registry_roundtrip_total (B : Nat → Nat) (gs : List Global) :
    ∀ ctx : standalone_ctx_t,
      (ctx.compositor ≠ 0 → announced "wl_compositor" gs = 0) →
      announced "wl_compositor" gs ≤ 1 →
      (ctx.xdg_wm_base ≠ 0 → announced "xdg_wm_base" gs = 0) →
      announced "xdg_wm_base" gs ≤ 1 →
      ∃ ctx', registry_roundtrip B ctx gs = Except.ok ctx' := by
  induction gs with
  | nil =>
    intro ctx _ _ _ _
    exact ⟨ctx, rfl⟩
  | cons g gs ih =>
    intro ctx c0 c1 x0 x1
    rw [registry_roundtrip]
    by_cases hc : g.interface = "wl_compositor"
    · have hx : g.interface ≠ "xdg_wm_base" := by rw [hc]; decide
      rw [announced_cons_eq _ g gs hc] at c0 c1
      rw [announced_cons_ne _ g gs hx] at x0 x1
      have h0 : ctx.compositor = 0 := by
        by_contra hne
        have := c0 hne
        omega
      simp only [registry_event_add, hc, h0, ne_eq, not_true_eq_false, if_true, if_false]
      exact ih _ (fun _ => by omega) (by omega) x0 x1
    · by_cases hx : g.interface = "xdg_wm_base"
      · rw [announced_cons_ne _ g gs hc] at c0 c1
        rw [announced_cons_eq _ g gs hx] at x0 x1
        have h0 : ctx.xdg_wm_base = 0 := by
          by_contra hne
          have := x0 hne
          omega
        simp only [registry_event_add, hc, hx, h0, ne_eq, not_true_eq_false, if_true, if_false]
        exact ih _ c0 c1 (fun _ => by omega) (by omega)
      · rw [announced_cons_ne _ g gs hc] at c0 c1
        rw [announced_cons_ne _ g gs hx] at x0 x1
        rw [registry_event_add_other B ctx g hc hx]
        exact ih _ c0 c1 x0 x1

theorem registry_roundtrip_append (B : Nat → Nat) (pre post : List Global) :
    ∀ ctx c, registry_roundtrip B ctx pre = Except.ok c →
      registry_roundtrip B ctx (pre ++ post) = registry_roundtrip B c post := by
  induction pre with
  | nil =>
    intro ctx c h
    simp [registry_roundtrip] at h
    subst h
    rfl
  | cons g gs ih =>
    intro ctx c h
    rw [registry_roundtrip] at h
    rw [List.cons_append, registry_roundtrip]
    cases hr : registry_event_add B ctx g.id g.interface g.version with
    | error e => rw [hr] at h; simp at h
    | ok c1 =>
      rw [hr] at h
      exact ih c1 c h

/-- C6. With every bind returning a non-null proxy and no capability bound at
the start: the registry phase passes its check exactly when the announcements
hold one `wl_compositor` and one `xdg_wm_base`, and then `compositor_id` and
`xdg_wm_base_id` are the ids of these two announcements; the roundtrip itself
runs to its end exactly when neither name is announced twice; an announcement
of a name already announced is fatal in the handler, and the phase ends with
that error; after a roundtrip that lacks one of the names the check is fatal;
an announcement of any other interface leaves the context as it is. -/
theorem registry_phase (B : Nat → Nat) (hB : ∀ id, B id ≠ 0) (ctx : standalone_ctx_t)
    (hc : ctx.compositor = 0) (hx : ctx.xdg_wm_base = 0) (gs : List Global) :
    ((∃ ctx', standalone_dmabuf_import_init_registry B ctx gs = Except.ok ctx')
        ↔ announced "wl_compositor" gs = 1 ∧ announced "xdg_wm_base" gs = 1)
    ∧ (∀ ctx', standalone_dmabuf_import_init_registry B ctx gs = Except.ok ctx' →
        ∀ g ∈ gs, (g.interface = "wl_compositor" → ctx'.compositor_id = g.id)
          ∧ (g.interface = "xdg_wm_base" → ctx'.xdg_wm_base_id = g.id))
    ∧ ((∃ c, registry_roundtrip B ctx gs = Except.ok c)
        ↔ announced "wl_compositor" gs ≤ 1 ∧ announced "xdg_wm_base" gs ≤ 1)
    ∧ (∀ pre g post c, gs = pre ++ g :: post → registry_roundtrip B ctx pre = Except.ok c →
        (g.interface = "wl_compositor" → announced "wl_compositor" pre ≠ 0 →
          registry_event_add B c g.id g.interface g.version
              = Except.error Fatal.duplicate_compositor
            ∧ standalone_dmabuf_import_init_registry B ctx gs
              = Except.error Fatal.duplicate_compositor)
        ∧ (g.interface = "xdg_wm_base" → announced "xdg_wm_base" pre ≠ 0 →
          registry_event_add B c g.id g.interface g.version
              = Except.error Fatal.duplicate_xdg_wm_base
            ∧ standalone_dmabuf_import_init_registry B ctx gs
              = Except.error Fatal.duplicate_xdg_wm_base))
    ∧ (∀ c, registry_roundtrip B ctx gs = Except.ok c →
        (announced "wl_compositor" gs = 0 →
          check_protocols c = Except.error Fatal.no_compositor)
        ∧ (announced "wl_compositor" gs ≠ 0 → announced "xdg_wm_base" gs = 0 →
          check_protocols c = Except.error Fatal.no_xdg_wm_base))
    ∧ (∀ (c : standalone_ctx_t) (g : Global),
        g.interface ≠ "wl_compositor" → g.interface ≠ "xdg_wm_base" →
        registry_event_add B c g.id g.interface g.version = Except.ok c) := by
  have key : ∀ ctx', standalone_dmabuf_import_init_registry B ctx gs = Except.ok ctx' →
      registry_roundtrip B ctx gs = Except.ok ctx' ∧ ctx'.compositor ≠ 0
        ∧ ctx'.xdg_wm_base ≠ 0 := by
    intro ctx' h
    unfold standalone_dmabuf_import_init_registry at h
    cases hr : registry_roundtrip B ctx gs with
    | error e => rw [hr] at h; simp at h
    | ok c =>
      rw [hr] at h
      simp only [check_protocols] at h
      by_cases h1 : c.compositor = 0
      · simp [h1] at h
      · by_cases h2 : c.xdg_wm_base = 0
        · simp [h1, h2] at h
        · simp [h1, h2] at h
          subst h
          exact ⟨rfl, h1, h2⟩
  refine ⟨⟨?_, ?_⟩, ?_, ⟨?_, ?_⟩, ?_, ?_, ?_⟩
  · rintro ⟨ctx', h⟩
    obtain ⟨hr, n1, n2⟩ := key ctx' h
    obtain ⟨i1, i2, i3, i4⟩ := registry_roundtrip_ok B hB gs ctx ctx' hr
    constructor
    · by_contra hne
      by_cases hz : announced "wl_compositor" gs = 0
      · exact n1 ((i1 hz).1.trans hc)
      · exact hne (i2 hz).2.1
    · by_contra hne
      by_cases hz : announced "xdg_wm_base" gs = 0
      · exact n2 ((i3 hz).1.trans hx)
      · exact hne (i4 hz).2.1
  · rintro ⟨a1, a2⟩
    obtain ⟨c, hr⟩ := registry_roundtrip_total B gs ctx (fun h => absurd hc h) (by omega)
      (fun h => absurd hx h) (by omega)
    obtain ⟨i1, i2, i3, i4⟩ := registry_roundtrip_ok B hB gs ctx c hr
    refine ⟨c, ?_⟩
    unfold standalone_dmabuf_import_init_registry
    rw [hr]
    simp [check_protocols, (i2 (by omega)).2.2.1, (i4 (by omega)).2.2.1]
  · intro ctx' h g hg
    obtain ⟨hr, n1, n2⟩ := key ctx' h
    obtain ⟨i1, i2, i3, i4⟩ := registry_roundtrip_ok B hB gs ctx ctx' hr
    constructor
    · intro hi
      have := announced_pos _ g gs hg hi
      exact ((i2 (by omega)).2.2.2 g hg hi).1
    · intro hi
      have := announced_pos _ g gs hg hi
      exact ((i4 (by omega)).2.2.2 g hg hi).1
  · rintro ⟨c, hr⟩
    obtain ⟨i1, i2, i3, i4⟩ := registry_roundtrip_ok B hB gs ctx c hr
    constructor
    · by_cases hz : announced "wl_compositor" gs = 0
      · omega
      · exact (i2 hz).2.1.le
    · by_cases hz : announced "xdg_wm_base" gs = 0
      · omega
      · exact (i4 hz).2.1.le
  · rintro ⟨a1, a2⟩
    exact registry_roundtrip_total B gs ctx (fun h => absurd hc h) a1 (fun h => absurd hx h) a2
  · intro pre g post c hgs hr
    obtain ⟨i1, i2, i3, i4⟩ := registry_roundtrip_ok B hB pre ctx c hr
    constructor
    · intro hi hne
      have hadd : registry_event_add B c g.id g.interface g.version
          = Except.error Fatal.duplicate_compositor := by
        simp [registry_event_add, hi, (i2 hne).2.2.1]
      refine ⟨hadd, ?_⟩
      unfold standalone_dmabuf_import_init_registry
      rw [hgs, registry_roundtrip_append B pre (g :: post) ctx c hr, registry_roundtrip, hadd]
    · intro hi hne
      have hadd : registry_event_add B c g.id g.interface g.version
          = Except.error Fatal.duplicate_xdg_wm_base := by
        have hcx : ("xdg_wm_base" : String) ≠ "wl_compositor" := by decide
        simp [registry_event_add, hi, hcx, (i4 hne).2.2.1]
      refine ⟨hadd, ?_⟩
      unfold standalone_dmabuf_import_init_registry
      rw [hgs, registry_roundtrip_append B pre (g :: post) ctx c hr, registry_roundtrip, hadd]
  · intro c hr
    obtain ⟨i1, i2, i3, i4⟩ := registry_roundtrip_ok B hB gs ctx c hr
    constructor
    · intro hz
      simp [check_protocols, (i1 hz).1, hc]
    · intro hnz hz
      simp [check_protocols, (i2 hnz).2.2.1, (i3 hz).1, hx]
  · intro c g h1 h2
    exact registry_event_add_other B c g h1 h2

/-- C6, witness: one `wl_compositor` and one `xdg_wm_base` among four
globals, from the freshly initialised context. -/
theorem registry_phase_witness :
    (∀ id, bind_proxy id ≠ 0)
    ∧ (standalone_dmabuf_import_init_ctx 0).compositor = 0
    ∧ (standalone_dmabuf_import_init_ctx 0).xdg_wm_base = 0
    ∧ ((∃ ctx', standalone_dmabuf_import_init_registry bind_proxy
          (standalone_dmabuf_import_init_ctx 0) usual_globals = Except.ok ctx')
        ↔ announced "wl_compositor" usual_globals = 1
          ∧ announced "xdg_wm_base" usual_globals = 1) :=
  ⟨fun id => Nat.succ_ne_zero id, rfl, rfl,
   (registry_phase bind_proxy (fun id => Nat.succ_ne_zero id)
      (standalone_dmabuf_import_init_ctx 0) rfl rfl usual_globals).1⟩

/-! ## The import call -/

theorem lookups_append (a b : List Call) : lookups (a ++ b) = lookups a + lookups b := by
  induction a with
  | nil => simp [lookups]
  | cons c cs ih =>
    cases c <;> simp [lookups, ih]
    omega

theorem import_returned_lookups (env : Platform) (res res' : Resources)
    (egl_display egl_texture : Nat) (d d' : dmabuf_t)
    (h : standalone_dmabuf_import_to_texture env res egl_display egl_texture d
      = some (Outcome.returned, res', d')) :
    lookups res'.calls = lookups res.calls + 1 := by
  unfold standalone_dmabuf_import_to_texture at h
  by_cases hm : env.malloc_result = 0
  · simp [hm] at h
  · cases ha : image_attribs d with
    | none => simp [hm, ha] at h
    | some attribs =>
      by_cases hi : env.frame_image = 0
      · simp [hm, ha, hi] at h
      · by_cases hp : env.proc = 0
        · simp [hm, ha, hi, hp] at h
        · simp only [hm, ha, hi, hp, if_false, Option.some.injEq, Prod.mk.injEq, true_and] at h
          rw [← h.1]
          simp [lookups_append, lookups]

/-- C10, as stated, fails: two successful calls in a row make two lookups of
`glEGLImageTargetTexture2DOES`, not one. -/
theorem two_calls_two_lookups :
    ∃ res', import_run no_resources [good_frame, good_frame] = some (Outcome.returned, res')
      ∧ lookups res'.calls = 2 := by
  have ha : image_attribs xrgb_1080p = some (expected_attribs xrgb_1080p) :=
    image_attribs_eq xrgb_1080p (by decide)
  simp [import_run, standalone_dmabuf_import_to_texture, good_frame, no_resources, ha,
    lookups_append, lookups]

/-- C10, amended. Each call that returns makes one `eglGetProcAddress` lookup:
a run of calls that all return makes as many lookups as it has calls. -/
theorem lookups_per_call (frames : List Frame) :
    ∀ res res', import_run res frames = some (Outcome.returned, res') →
      lookups res'.calls = lookups res.calls + frames.length := by
  induction frames with
  | nil =>
    intro res res' h
    simp [import_run] at h
    subst h
    rfl
  | cons f fs ih =>
    intro res res' h
    rw [import_run] at h
    cases hr : standalone_dmabuf_import_to_texture f.env res f.egl_display f.egl_texture f.dmabuf with
    | none => rw [hr] at h; simp at h
    | some r =>
      obtain ⟨out, r1, d'⟩ := r
      rw [hr] at h
      cases out with
      | exited status => simp at h
      | crashed => simp at h
      | returned =>
        simp only at h
        rw [ih r1 res' h, import_returned_lookups _ _ _ _ _ _ _ hr, List.length_cons]
        omega

/-- C10 amended, witness: three successful calls make three lookups. -/
theorem lookups_per_call_witness :
    ∃ res', import_run no_resources [good_frame, good_frame, good_frame]
        = some (Outcome.returned, res')
      ∧ lookups res'.calls = 3 := by
  have ha : image_attribs xrgb_1080p = some (expected_attribs xrgb_1080p) :=
    image_attribs_eq xrgb_1080p (by decide)
  have hrun : ∃ res', import_run no_resources [good_frame, good_frame, good_frame]
      = some (Outcome.returned, res') := by
    simp [import_run, standalone_dmabuf_import_to_texture, good_frame, ha]
  obtain ⟨res', h⟩ := hrun
  exact ⟨res', h, lookups_per_call _ no_resources res' h⟩

/-! ## Bounds of the array accesses -/

theorem plane_body_accesses_mono (st : List Access × Nat) (plane : Nat) (a : Access)
    (h : a ∈ st.1) : a ∈ (plane_body_accesses st plane).1 := by
  unfold plane_body_accesses
  exact List.mem_append_left _ h

theorem foldl_accesses_mono (l : List Nat) :
    ∀ (st : List Access × Nat) (a : Access), a ∈ st.1 →
      a ∈ (l.foldl plane_body_accesses st).1 := by
  induction l with
  | nil => intro st a h; exact h
  | cons x xs ih =>
    intro st a h
    rw [List.foldl_cons]
    exact ih _ a (plane_body_accesses_mono st x a h)

/-- The loop reads each key table at every plane index it runs through. -/
theorem foldl_accesses_reads (l : List Nat) (plane : Nat) (hp : plane ∈ l) :
    ∀ st : List Access × Nat,
      ({ array := Arr.fd_attribs, index := plane } : Access)
          ∈ (l.foldl plane_body_accesses st).1
      ∧ ({ array := Arr.offset_attribs, index := plane } : Access)
          ∈ (l.foldl plane_body_accesses st).1
      ∧ ({ array := Arr.stride_attribs, index := plane } : Access)
          ∈ (l.foldl plane_body_accesses st).1
      ∧ ({ array := Arr.modifier_low_attribs, index := plane } : Access)
          ∈ (l.foldl plane_body_accesses st).1
      ∧ ({ array := Arr.modifier_high_attribs, index := plane } : Access)
          ∈ (l.foldl plane_body_accesses st).1 := by
  induction l with
  | nil => simp at hp
  | cons x xs ih =>
    intro st
    rw [List.foldl_cons]
    rcases List.mem_cons.1 hp with rfl | hmem
    · refine ⟨?_, ?_, ?_, ?_, ?_⟩ <;>
        exact foldl_accesses_mono xs _ _ (by simp [plane_body_accesses])
    · exact ih hmem _

/-- An iteration with a plane index of 4 or more reads past the end of
`fd_attribs`. -/
theorem plane_body_out_of_table (d : dmabuf_t) (m : Nat) (st : List (Option Int) × Nat)
    (plane : Nat) (hp : 4 ≤ plane) : plane_body d m st plane = none := by
  have h : fd_attribs[plane]? = none := List.getElem?_eq_none (by simpa [fd_attribs] using hp)
  simp [plane_body, h]

theorem plane_loop_out_of_table (d : dmabuf_t) (m : Nat) (l : List Nat)
    (hl : ∃ plane ∈ l, 4 ≤ plane) :
    ∀ st, l.foldlM (plane_body d m) st = none := by
  induction l with
  | nil => simp at hl
  | cons x xs ih =>
    intro st
    rw [List.foldlM_cons]
    cases hb : plane_body d m st x with
    | none => rfl
    | some st1 =>
      obtain ⟨plane, hmem, hp⟩ := hl
      rcases List.mem_cons.1 hmem with rfl | hxs
      · rw [plane_body_out_of_table d m st plane hp] at hb
        cases hb
      · exact ih ⟨plane, hxs, hp⟩ st1

theorem fill_image_attribs_out_of_table (d : dmabuf_t) (h5 : 5 ≤ d.planes) :
    fill_image_attribs d = none := by
  have hl := plane_loop_out_of_table d d.modifier (List.range d.planes)
    ⟨4, List.mem_range.2 (by omega), le_refl 4⟩
  simp only [fill_image_attribs, Option.bind_eq_bind, hl, Option.none_bind]
  simp

/-- The accesses for a plane count of at most four, checked count by count. -/
theorem import_accesses_small (planes : Nat) (h4 : planes ≤ 4) :
    (∀ a ∈ (import_accesses planes).1, a.index < capacity planes a.array)
    ∧ (∀ a ∈ (import_accesses planes).1, reads_descriptor a = true → a.index < planes)
    ∧ (import_accesses planes).2 = 6 + 10 * planes + 1
    ∧ writes (import_accesses planes).1 = List.range (6 + 10 * planes + 1) := by
  interval_cases planes <;> decide

/-- C11. With a plane count of at most 4, every array access of
`standalone_dmabuf_import_to_texture` is in bounds: each write into
`image_attribs` is below the allocated length `6 + 10 * planes + 1`, each read
of the five key tables and of the descriptor's per-plane arrays is below 4
(the latter below the plane count), the index `i` ends at the allocated
length, and the writes go to the cells `0, 1, ..., 6 + 10 * planes`, each
once; the bounds-checked block is filled, every cell written. With a plane
count of 5 or more the five key tables are read at index 4, past their four
entries, and the bounds-checked fill is undefined. -/
theorem import_accesses_in_bounds (d : dmabuf_t) :
    (d.planes ≤ 4 →
      (∀ a ∈ (import_accesses d.planes).1, a.index < capacity d.planes a.array)
      ∧ (∀ a ∈ (import_accesses d.planes).1, reads_descriptor a = true → a.index < d.planes)
      ∧ (import_accesses d.planes).2 = 6 + 10 * d.planes + 1
      ∧ writes (import_accesses d.planes).1 = List.range (6 + 10 * d.planes + 1)
      ∧ ∃ cells l, fill_image_attribs d = some (cells, 6 + 10 * d.planes + 1)
          ∧ cells.length = 6 + 10 * d.planes + 1 ∧ written cells = some l)
    ∧ (5 ≤ d.planes →
      (∀ arr ∈ [Arr.fd_attribs, Arr.offset_attribs, Arr.stride_attribs,
            Arr.modifier_low_attribs, Arr.modifier_high_attribs],
          ({ array := arr, index := 4 } : Access) ∈ (import_accesses d.planes).1
          ∧ capacity d.planes arr = 4)
      ∧ fill_image_attribs d = none) := by
  constructor
  · intro h4
    obtain ⟨a1, a2, a3, a4⟩ := import_accesses_small d.planes h4
    refine ⟨a1, a2, a3, a4, _, expected_attribs d, ?_, ?_, written_blk _⟩
    · rw [fill_image_attribs_eq d h4]
      simp [blk, expected_attribs, fixed_attribs, length_planes_attribs]
      omega
    · simp [blk, expected_attribs, fixed_attribs, length_planes_attribs]
      omega
  · intro h5
    refine ⟨?_, fill_image_attribs_out_of_table d h5⟩
    have hr := fun st => foldl_accesses_reads (List.range d.planes) 4
      (List.mem_range.2 (by omega)) st
    intro arr harr
    simp only [List.mem_cons, List.mem_singleton, List.not_mem_nil, or_false] at harr
    unfold import_accesses
    rcases harr with rfl | rfl | rfl | rfl | rfl
    · exact ⟨List.mem_append_left _ (hr _).1, rfl⟩
    · exact ⟨List.mem_append_left _ (hr _).2.1, rfl⟩
    · exact ⟨List.mem_append_left _ (hr _).2.2.1, rfl⟩
    · exact ⟨List.mem_append_left _ (hr _).2.2.2.1, rfl⟩
    · exact ⟨List.mem_append_left _ (hr _).2.2.2.2, rfl⟩

/-- C11, witness: the one-plane buffer, whose 17 cells are written in order,
and the five-plane descriptor, for which `fd_attribs` is read at index 4. -/
theorem import_accesses_in_bounds_witness :
    (xrgb_1080p.planes ≤ 4
      ∧ (import_accesses xrgb_1080p.planes).2 = 17
      ∧ writes (import_accesses xrgb_1080p.planes).1 = List.range 17)
    ∧ (5 ≤ five_planes.planes
      ∧ ({ array := Arr.fd_attribs, index := 4 } : Access)
          ∈ (import_accesses five_planes.planes).1
      ∧ fill_image_attribs five_planes = none) :=
  ⟨⟨by decide, ((import_accesses_in_bounds xrgb_1080p).1 (by decide)).2.2.1,
      ((import_accesses_in_bounds xrgb_1080p).1 (by decide)).2.2.2.1⟩,
    ⟨by decide,
      (((import_accesses_in_bounds five_planes).2 (by decide)).1 Arr.fd_attribs
        (by decide)).1,
      ((import_accesses_in_bounds five_planes).2 (by decide)).2⟩⟩

end WlMirror
